import Mathlib

/-!
Shallow embedding of the Myelin ICD-10 converter, table parsers and IPSF
point-in-time provider lookup, together with theorems settling the frozen
claims about them.  Every definition is translated from the Python source
(`myelin/converter/icd_converter.py`, `myelin/converter/parse_icd_table.py`,
`myelin/pricers/ipsf.py`); dates are modelled as year/month/day triples
compared through their `yyyymmdd` key, SQL queries as list filters with the
source's ordering, Python dicts as insertion-ordered association lists, and
Python exceptions as `Except String`.
-/

namespace Myelin

/-- A calendar date as Python's `datetime`/`date` carries it.  The year is an
`Int` because the converter subtracts 1983 from it.  Comparisons in the
source are plain date comparisons, modelled through `toKey`. -/
structure PyDate where
  year : Int
  month : Nat
  day : Nat
deriving DecidableEq, Repr

/-- Order-embedding of a date: `year*10000 + month*100 + day`, the usual
`yyyymmdd` key.  For real dates (month ≤ 12, day ≤ 31) this respects
lexicographic date order, which is how the SQL layer compares `Date`s. -/
def PyDate.toKey (d : PyDate) : Int :=
  d.year * 10000 + (d.month : Int) * 100 + (d.day : Int)

/-- `code.replace(".", "")` from the source: drop every period. -/
def stripDots (s : String) : String :=
  String.mk (s.data.filter (fun c => c ≠ '.'))

/-- Numeric value of a digit string, as Python `int` computes it on an
all-digit string (most significant digit first). -/
def digitsVal (cs : List Char) : Nat :=
  cs.foldl (fun n c => n * 10 + (c.toNat - 48)) 0

/-- Python `int(s, 10)` for the strings this code base feeds it: an
optional leading minus sign followed by one or more digits; anything else
raises `ValueError`, modelled as `none`.  (Python also tolerates
whitespace, a plus sign and underscores, which never occur here.) -/
def pyInt? (cs : List Char) : Option Int :=
  match cs with
  | '-' :: rest =>
    if !rest.isEmpty && rest.all Char.isDigit then some (-(digitsVal rest : Int))
    else none
  | _ =>
    if !cs.isEmpty && cs.all Char.isDigit then some ((digitsVal cs : Int))
    else none

/-- One row of the `icd10_conversion` table (`ICD10Conversion` ORM model):
previous code, current code, effective date, and the code system
(`code_type`: 0 for ICD-10-CM diagnoses, 1 for ICD-10-PCS procedures). -/
structure ICD10Conversion where
  previous_code : String
  current_code : String
  effective_date : PyDate
  code_type : Nat
deriving DecidableEq, Repr

/-- The `ICD10CodeOutput` pydantic model as the converter constructs it:
both fields are always populated (`original_code=code`,
`conversion_choices=[...]`). -/
structure ICD10CodeOutput where
  original_code : String
  conversion_choices : List String
deriving DecidableEq, Repr

/-- Filter of `convert_backward`'s query: `current_code == code.replace(".","")`,
`effective_date > query_date`, `code_type == code_type`. -/
def backQualifies (code : String) (as_of : PyDate) (ct : Nat)
    (e : ICD10Conversion) : Bool :=
  e.current_code == stripDots code
    && as_of.toKey < e.effective_date.toKey
    && e.code_type == ct

/-- `ORDER BY effective_date DESC ... .first()` on a result list: the first
row carrying the maximal effective date (ties keep the earliest row, i.e. a
stable descending sort's head). -/
def pickLatest : List ICD10Conversion → Option ICD10Conversion
  | [] => none
  | e :: es =>
    match pickLatest es with
    | none => some e
    | some b =>
      if e.effective_date.toKey < b.effective_date.toKey then some b else some e

/-- `ICDConverter.convert_backward`: among rows whose `current_code` matches
the punctuation-stripped query code in the queried code system with
`effective_date` strictly after `as_of`, take the row with the greatest
effective date and return its `previous_code` as the sole candidate;
`None` when no row qualifies. -/
def convert_backward (db : List ICD10Conversion) (code : String)
    (as_of : PyDate) (ct : Nat) : Option ICD10CodeOutput :=
  match pickLatest (db.filter (backQualifies code as_of ct)) with
  | some r => some ⟨code, [r.previous_code]⟩
  | none => none

/-- Filter of `convert_forward`'s query: `previous_code == code.replace(".","")`,
`effective_date <= query_date`, `code_type == code_type`. -/
def fwdQualifies (code : String) (as_of : PyDate) (ct : Nat)
    (e : ICD10Conversion) : Bool :=
  e.previous_code == stripDots code
    && e.effective_date.toKey ≤ as_of.toKey
    && e.code_type == ct

/-- Ordering used by `convert_forward`'s `ORDER BY effective_date ASC`. -/
def effLE (a b : ICD10Conversion) : Prop :=
  a.effective_date.toKey ≤ b.effective_date.toKey

instance : DecidableRel effLE := fun a b => by
  unfold effLE; infer_instance

instance : IsTotal ICD10Conversion effLE :=
  ⟨fun a b => le_total a.effective_date.toKey b.effective_date.toKey⟩

instance : IsTrans ICD10Conversion effLE :=
  ⟨fun _ _ _ hab hbc => le_trans hab hbc⟩

/-- `ICDConverter.convert_forward`: every row whose `previous_code` matches
the punctuation-stripped query code in the queried code system with
`effective_date` at or before `as_of`, sorted ascending by effective date;
their `current_code`s are the candidates, `None` when no row qualifies. -/
def convert_forward (db : List ICD10Conversion) (code : String)
    (as_of : PyDate) (ct : Nat) : Option ICD10CodeOutput :=
  let results := List.insertionSort effLE (db.filter (fwdQualifies code as_of ct))
  if results.isEmpty then none
  else some ⟨code, results.map (fun r => r.current_code)⟩

/-- `ICDConverter.determine_drg_version`: fiscal-year based version id for a
date.  `year = date.year - 1983`; October onward gives `(year+1)` with
suffix `"0"`, April–September `year` with suffix `"1"`, January–March
`(year-1)` with suffix `"0"`.  The year part is printed exactly as Python's
f-string prints the `int` (no zero padding). -/
def determine_drg_version (d : PyDate) : String :=
  let year : Int := d.year - 1983
  if 10 ≤ d.month then toString (year + 1) ++ "0"
  else if 3 < d.month then toString year ++ "1"
  else toString (year - 1) ++ "0"

/-- Version-to-effective-date computation of
`ICDConverter.generate_claim_mappings` (lines 309–314 / 331–336):
`int(version[0:2], 10) + 1983` is the effective year; a version ending in
`"1"` is effective April 1 of that year, otherwise October 1 of the prior
year.  The prefix parse is total here (`getD 0`); every call site in the
source guards the string to be numeric (or the claim restricts to valid
version ids), so the default is never observed there. -/
def version_to_effective_date (v : String) : PyDate :=
  let p : Int := (pyInt? (v.data.take 2)).getD 0
  if v.data.getLast? == some '1' then ⟨p + 1983, 4, 1⟩
  else ⟨p + 1983 - 1, 10, 1⟩

/-- A valid 3-character version id as the claims describe it: a two-digit
numeric first part followed by `'0'` or `'1'`. -/
def validVersion (v : String) : Bool :=
  v.data.length == 3 && (v.data.take 2).all Char.isDigit
    && (v.data.drop 2 == ['0'] || v.data.drop 2 == ['1'])

/-- Python `str.isnumeric` restricted to ASCII content: non-empty and all
digits (the source only ever feeds ASCII version strings here). -/
def isNumericStr (s : String) : Bool :=
  !s.data.isEmpty && s.data.all Char.isDigit

/-- `ICDConvertOption` enum from `myelin/input/claim.py`. -/
inductive ICDConvertOption where
  | NONE
  | AUTO
  | MANUAL
deriving DecidableEq, Repr

/-- `ICDConvertOptions` pydantic model: all three fields optional. -/
structure ICDConvertOptions where
  option : Option ICDConvertOption
  target_version : Option String
  billed_version : Option String
deriving DecidableEq, Repr

/-- The fields of the `Claim` pydantic model that
`generate_claim_mappings` reads.  Diagnosis/procedure entries are reduced
to their `code` strings (the only field the converter touches). -/
structure Claim where
  thru_date : Option PyDate
  principal_dx : Option String
  admit_dx : Option String
  secondary_dxs : List String
  inpatient_pxs : List String
  icd_convert : Option ICDConvertOptions
deriving DecidableEq, Repr

/-- The `mappings` Python dict: an insertion-ordered association list from
code to `Optional[ICD10CodeOutput]`. -/
abbrev Mappings := List (String × Option ICD10CodeOutput)

/-- Python `k in dict`. -/
def dictMem (m : Mappings) (k : String) : Bool :=
  m.any (fun p => p.1 == k)

/-- Python `dict[k] = v`: overwrite in place when the key exists (keeping
its position), otherwise append at the end. -/
def dictSet (m : Mappings) (k : String) (v : Option ICD10CodeOutput) : Mappings :=
  if dictMem m k then m.map (fun p => if p.1 == k then (k, v) else p)
  else m ++ [(k, v)]

/-- Python `dict[k]` as an option (first entry with the key, if any). -/
def dictFind (m : Mappings) (k : String) : Option (Option ICD10CodeOutput) :=
  (m.find? (fun p => p.1 == k)).map (fun p => p.2)

/-- The keys of the mapping dict, in insertion order. -/
def dictKeys (m : Mappings) : List String :=
  m.map Prod.fst

/-- The secondary-diagnosis / procedure loops of
`generate_claim_mappings`: for each code not already a key, run the
converter and add the result only when it is not `None` (the source's
`mapping is not None and mapping.conversion_choices is not None` — and, in
the forward branch, the degenerate `mapping is not None and mapping is not
None` — both reduce to `isSome`, since the converters always populate
`conversion_choices`).  A skipped code leaves the dict untouched. -/
def addIfAbsent (conv : String → Option ICD10CodeOutput)
    (m : Mappings) (codes : List String) : Mappings :=
  codes.foldl
    (fun acc c =>
      if dictMem acc c then acc
      else
        match conv c with
        | some mp => acc ++ [(c, some mp)]
        | none => acc)
    m

/-- The shared body of both conversion branches of
`generate_claim_mappings` (they differ only in the converter used):
principal and admit diagnoses are assigned unconditionally (possibly
`None`), then secondary diagnoses and inpatient procedures are added
through `addIfAbsent`, procedures with the procedure-system converter. -/
def buildMappings (dxConv pxConv : String → Option ICD10CodeOutput)
    (pdx : String) (adx : Option String)
    (sdxs pxs : List String) : Mappings :=
  let m := dictSet [] pdx (dxConv pdx)
  let m :=
    match adx with
    | some a => dictSet m a (dxConv a)
    | none => m
  let m := addIfAbsent dxConv m sdxs
  addIfAbsent pxConv m pxs

/-- `ICD10ConvertOutput` pydantic model. -/
structure ICD10ConvertOutput where
  target_version : Option String
  billed_version : Option String
  mappings : Mappings
deriving DecidableEq, Repr

/-- Version plumbing of `generate_claim_mappings` (lines 301–338): yields
`(target_version_int, target_eff_date, billed_version,
output.target_version, output.billed_version)` or the raised error.
MANUAL requires both version strings present and numeric; AUTO (or no
`icd_convert` at all) requires the `target_vers` argument and derives the
billed version from `determine_drg_version(claim.thru_date)`.  Any other
option value leaves `target_version_int` unbound in Python, so line 340
raises a `NameError`; `int(...)` on a non-numeric AUTO target raises
`ValueError`. -/
def genVersions (claim : Claim) (target_vers : Option String) (thru : PyDate) :
    Except String (Int × PyDate × Int × Option String × Option String) :=
  match claim.icd_convert with
  | some ic =>
    match ic.option with
    | some ICDConvertOption.MANUAL =>
      match ic.target_version, ic.billed_version with
      | some tv, some bv =>
        if isNumericStr tv && isNumericStr bv then
          match pyInt? (tv.data.take 2), pyInt? (bv.data.take 2) with
          | some tvi, some bvi =>
            .ok (tvi, version_to_effective_date tv, bvi, some tv, some bv)
          | _, _ => .error "ValueError: invalid literal for int"
        else
          .error "ICD convert target_version and billed_version must be provided for MANUAL option"
      | _, _ =>
        .error "ICD convert target_version and billed_version must be provided for MANUAL option"
    | some ICDConvertOption.AUTO =>
      match target_vers with
      | none => .error "Target version must be provided for AUTO option"
      | some tv =>
        match pyInt? ((determine_drg_version thru).data.take 2), pyInt? (tv.data.take 2) with
        | some bvi, some tvi =>
          .ok (tvi, version_to_effective_date tv, bvi, some tv,
            some (determine_drg_version thru))
        | _, _ => .error "ValueError: invalid literal for int"
    | _ => .error "NameError: name target_version_int is not defined"
  | none =>
    match target_vers with
    | none => .error "Target version must be provided for AUTO option"
    | some tv =>
      match pyInt? ((determine_drg_version thru).data.take 2), pyInt? (tv.data.take 2) with
      | some bvi, some tvi =>
        .ok (tvi, version_to_effective_date tv, bvi, some tv,
          some (determine_drg_version thru))
      | _, _ => .error "ValueError: invalid literal for int"

/-- `ICDConverter.generate_claim_mappings`: asserts `thru_date` and
`principal_dx`, resolves the versions, rejects version prefixes ≥ 100,
then — only when the versions differ — fills the mapping dict via the
backward or forward converter (diagnoses with `code_type` 0, procedures
with `code_type` 1).  Equal versions leave the dict empty. -/
def generate_claim_mappings (db : List ICD10Conversion) (claim : Claim)
    (target_vers : Option String) : Except String ICD10ConvertOutput :=
  match claim.thru_date with
  | none => .error "Claim thru_date must be provided"
  | some thru =>
    match claim.principal_dx with
    | none => .error "Claim principal_dx must be provided"
    | some pdx =>
      match genVersions claim target_vers thru with
      | .error e => .error e
      | .ok (tvi, teff, bvi, otv, obv) =>
        if 100 ≤ tvi ∨ 100 ≤ bvi then .error "Invalid ICD version"
        else if tvi < bvi then
          .ok ⟨otv, obv,
            buildMappings
              (fun c => convert_backward db c teff 0)
              (fun c => convert_backward db c teff 1)
              pdx claim.admit_dx claim.secondary_dxs claim.inpatient_pxs⟩
        else if bvi < tvi then
          .ok ⟨otv, obv,
            buildMappings
              (fun c => convert_forward db c teff 0)
              (fun c => convert_forward db c teff 1)
              pdx claim.admit_dx claim.secondary_dxs claim.inpatient_pxs⟩
        else .ok ⟨otv, obv, []⟩

/-! ### `parse_icd_table.expand_code_range` -/

/-- The character-by-character common-prefix loop of `expand_code_range`:
walk both codes in lockstep, keeping characters while they agree, stopping
at the first mismatch (or at the end of the shorter code). -/
def commonPref : List Char → List Char → List Char
  | a :: as, b :: bs => if a = b then a :: commonPref as bs else []
  | _, _ => []

/-- Python `str.isdigit` (ASCII content): non-empty and all digits. -/
def pyIsDigit (cs : List Char) : Bool :=
  !cs.isEmpty && cs.all Char.isDigit

/-- Python `str(i).zfill(w)`: left-pad with `'0'` to width `w` (never
truncates). -/
def zfillTo (w : Nat) (s : List Char) : List Char :=
  List.replicate (w - s.length) '0' ++ s

/-- `parse_icd_table.expand_code_range`: take the longest common literal
prefix of the two codes; when both remaining suffixes are non-empty
all-digit strings, enumerate every integer from the start suffix to the
end suffix inclusive, zero-padded to the start suffix's width, appended to
the prefix; otherwise fall back to exactly `[start_code, end_code]`. -/
def expand_code_range (start_code end_code : String) : List String :=
  let p := commonPref start_code.data end_code.data
  let ss := start_code.data.drop p.length
  let es := end_code.data.drop p.length
  if pyIsDigit ss && pyIsDigit es then
    let s := digitsVal ss
    let e := digitsVal es
    let w := ss.length
    (List.range' s (e + 1 - s)).map
      (fun i => String.mk (p ++ zfillTo w (Nat.repr i).data))
  else [start_code, end_code]

/-! ### `populate_database_pcs` -/

/-- Python `str.split(sep)` for a one-character separator: keeps empty
fields, `[""]` on the empty string. -/
def splitOnChar (sep : Char) : List Char → List (List Char)
  | [] => [[]]
  | c :: rest =>
    match splitOnChar sep rest with
    | [] => [[]]
    | g :: gs => if c = sep then [] :: g :: gs else (c :: g) :: gs

/-- Python `str.strip()`: drop leading and trailing whitespace. -/
def stripWS (cs : List Char) : List Char :=
  ((cs.dropWhile Char.isWhitespace).reverse.dropWhile Char.isWhitespace).reverse

/-- Python `str.lower()` on ASCII content. -/
def pyLower (cs : List Char) : List Char :=
  cs.map Char.toLower

/-- One data line of `populate_database_pcs` (lines 96–128 of
`icd_converter.py`): strip, split on tabs, skip when fewer than 8 fields;
skip `nopcs`/self-mapping rows — but the guard reads `previous_codes[0]`
after only short-circuiting on the current code, so an empty
previous-codes field (field 4 == `""`) raises `IndexError`.  A 4-digit
numeric year yields one `code_type=1` record per previous code with
periods stripped, effective on `MM.DD` of that year (January 1 when no
`MM.DD` given); a non-numeric year contributes nothing.  `datetime(...)`
rejects out-of-range months/days with `ValueError`; the per-month day
limits (e.g. February 30) are elided here, no claim touches them. -/
def pcs_process_line (line : String) : Except String (List ICD10Conversion) :=
  let parts := splitOnChar '\t' (stripWS line.data)
  if parts.length < 8 then .ok []
  else
    let current_code := parts.getD 0 []
    let effective_year := parts.getD 2 []
    let previous_codes :=
      if parts.getD 3 [] ≠ ([] : List Char) then splitOnChar ',' (parts.getD 3 [])
      else []
    let effective_month_day := parts.getD 7 []
    if pyLower current_code == "nopcs".data then .ok []
    else
      match previous_codes with
      | [] => .error "IndexError: list index out of range"
      | pc0 :: _ =>
        if pyLower pc0 == "nopcs".data || current_code == pc0 then .ok []
        else if pyIsDigit effective_year && effective_year.length == 4 then
          let md : Except String (Nat × Nat) :=
            if !effective_month_day.isEmpty && effective_month_day.contains '.' then
              match splitOnChar '.' effective_month_day with
              | [m, d] =>
                if pyIsDigit m && pyIsDigit d then .ok (digitsVal m, digitsVal d)
                else .error "ValueError: invalid literal for int"
              | _ => .error "ValueError: cannot unpack"
            else .ok (1, 1)
          match md with
          | .error e => .error e
          | .ok (month, day) =>
            if month < 1 || 12 < month || day < 1 || 31 < day then
              .error "ValueError: day or month is out of range"
            else
              .ok (previous_codes.map (fun pc =>
                ⟨String.mk (pc.filter (fun c => c ≠ '.')),
                 String.mk (current_code.filter (fun c => c ≠ '.')),
                 ⟨(digitsVal effective_year : Int), month, day⟩, 1⟩))
        else .ok []

/-- `populate_database_pcs` over the file's lines: `next(f)` drops the
header (raising on an empty file), then every further line is processed in
order; the first raised exception aborts the whole load with nothing
committed. -/
def populate_database_pcs (lines : List String) :
    Except String (List ICD10Conversion) :=
  match lines with
  | [] => .error "StopIteration"
  | _header :: rest =>
    rest.foldlM (fun acc line => (pcs_process_line line).map (acc ++ ·)) []

/-! ### IPSF point-in-time provider lookup (`myelin/pricers/ipsf.py`) -/

/-- The columns of one `ipsf` row that the claims touch (`provider_ccn`,
`national_provider_identifier`, `effective_date`, `termination_date`); the
remaining ~60 attribute columns are copied by the same
`setattr`-from-row loop and are not modelled.  `termination_date` is an
integer column that may be NULL. -/
structure IPSF_Row where
  provider_ccn : String
  national_provider_identifier : String
  effective_date : Int
  termination_date : Option Int
deriving DecidableEq, Repr

/-- The modelled slice of the `IPSFProvider` pydantic state. -/
structure IPSFProviderState where
  provider_ccn : String
  effective_date : Option Int
  termination_date : Option Int
deriving DecidableEq, Repr

/-- Pydantic defaults of the modelled `IPSFProvider` fields
(`provider_ccn=""`, `effective_date=19000101`,
`termination_date=19000101`). -/
def ipsf_default : IPSFProviderState :=
  ⟨"", some 19000101, some 19000101⟩

/-- The `Provider` fields `from_db` reads: `npi` and `other_id` (plain
strings defaulting to `""`), and `additional_data["ipsf"]` when it is a
dict — modelled as an optional association list restricted to
integer-valued overrides, the only values the modelled fields can hold. -/
structure Provider where
  npi : String
  other_id : String
  additional_data_ipsf : Option (List (String × Int))
deriving DecidableEq, Repr

/-- `SELECT ... ORDER BY effective_date DESC LIMIT 1` over rows matching
the key with `effective_date <= date_int`: the qualifying row with the
greatest effective date (ties keep the earliest row). -/
def ipsf_query (table : List IPSF_Row) (keyMatch : IPSF_Row → Bool)
    (date_int : Int) : Option IPSF_Row :=
  (table.filter (fun r => keyMatch r && r.effective_date ≤ date_int)).foldl
    (fun best r =>
      match best with
      | none => some r
      | some b => if b.effective_date < r.effective_date then some r else some b)
    none

/-- The `extra` override loop of `from_db` (lines 499–507): each key of
`provider.additional_data["ipsf"]` that names an existing attribute is
assigned over the loaded state — after the termination-date
normalization. -/
def applyExtra (st : IPSFProviderState) (kvs : List (String × Int)) :
    IPSFProviderState :=
  kvs.foldl
    (fun acc kv =>
      if kv.1 == "provider_ccn" then acc
      else if kv.1 == "effective_date" then
        { acc with effective_date := some kv.2 }
      else if kv.1 == "termination_date" then
        { acc with termination_date := some kv.2 }
      else acc)
    st

/-- `IPSFProvider.from_db`: query by CCN when `provider.other_id` is
truthy, else by NPI when truthy, else `ValueError`; a missing row raises
`ValueError` (`"No IPSF data found..."`); otherwise the row's columns are
copied onto the state, a `termination_date` of 19000101, 0 or NULL is
normalized to 20991231, and finally any `additional_data["ipsf"]` entries
override the loaded fields. -/
def from_db (table : List IPSF_Row) (provider : Provider) (date_int : Int)
    (st : IPSFProviderState) : Except String IPSFProviderState :=
  let key : Option (IPSF_Row → Bool) :=
    if provider.other_id ≠ "" then
      some (fun r => r.provider_ccn == provider.other_id)
    else if provider.npi ≠ "" then
      some (fun r => r.national_provider_identifier == provider.npi)
    else none
  match key with
  | none => .error "Provider must have either an NPI or other_id"
  | some keyMatch =>
    match ipsf_query table keyMatch date_int with
    | none =>
      .error ("No IPSF data found for provider "
        ++ (if provider.other_id ≠ "" then provider.other_id else provider.npi)
        ++ " on date " ++ toString date_int ++ ".")
    | some row =>
      let st1 : IPSFProviderState :=
        { st with
          provider_ccn := row.provider_ccn
          effective_date := some row.effective_date
          termination_date := row.termination_date }
      let st2 : IPSFProviderState :=
        if st1.termination_date = some 19000101 ∨ st1.termination_date = some 0
            ∨ st1.termination_date = none then
          { st1 with termination_date := some 20991231 }
        else st1
      let st3 : IPSFProviderState :=
        match provider.additional_data_ipsf with
        | some kvs => applyExtra st2 kvs
        | none => st2
      .ok st3

/-! ## Helper lemmas -/

theorem backQualifies_iff (code : String) (as_of : PyDate) (ct : Nat)
    (x : ICD10Conversion) :
    backQualifies code as_of ct x = true ↔
      x.current_code = stripDots code ∧ as_of.toKey < x.effective_date.toKey ∧
        x.code_type = ct := by
  simp [backQualifies, and_assoc]

theorem fwdQualifies_iff (code : String) (as_of : PyDate) (ct : Nat)
    (x : ICD10Conversion) :
    fwdQualifies code as_of ct x = true ↔
      x.previous_code = stripDots code ∧ x.effective_date.toKey ≤ as_of.toKey ∧
        x.code_type = ct := by
  simp [fwdQualifies, and_assoc]

theorem pickLatest_eq_none {l : List ICD10Conversion}
    (h : pickLatest l = none) : l = [] := by
  cases l with
  | nil => rfl
  | cons a as =>
    rw [pickLatest] at h
    cases hp : pickLatest as <;> rw [hp] at h <;> simp at h
    split at h <;> simp at h

theorem pickLatest_mem {l : List ICD10Conversion} {e : ICD10Conversion}
    (h : pickLatest l = some e) : e ∈ l := by
  induction l generalizing e with
  | nil => simp [pickLatest] at h
  | cons a as ih =>
    cases hp : pickLatest as with
    | none =>
      simp only [pickLatest, hp] at h
      injection h with h
      subst h
      exact List.mem_cons_self a as
    | some b =>
      simp only [pickLatest, hp] at h
      by_cases hab : a.effective_date.toKey < b.effective_date.toKey
      · rw [if_pos hab] at h
        injection h with h
        subst h
        exact List.mem_cons_of_mem a (ih hp)
      · rw [if_neg hab] at h
        injection h with h
        subst h
        exact List.mem_cons_self a as

theorem pickLatest_ge {l : List ICD10Conversion} {e : ICD10Conversion}
    (h : pickLatest l = some e) :
    ∀ x ∈ l, x.effective_date.toKey ≤ e.effective_date.toKey := by
  induction l generalizing e with
  | nil => simp [pickLatest] at h
  | cons a as ih =>
    intro x hx
    cases hp : pickLatest as with
    | none =>
      simp only [pickLatest, hp] at h
      injection h with h
      subst h
      rw [pickLatest_eq_none hp] at hx
      rcases List.mem_singleton.mp hx with rfl
      exact le_refl _
    | some b =>
      simp only [pickLatest, hp] at h
      by_cases hab : a.effective_date.toKey < b.effective_date.toKey
      · rw [if_pos hab] at h
        injection h with h
        subst h
        rcases List.mem_cons.mp hx with rfl | hx
        · exact le_of_lt hab
        · exact ih hp x hx
      · rw [if_neg hab] at h
        injection h with h
        subst h
        rcases List.mem_cons.mp hx with rfl | hx
        · exact le_refl _
        · exact le_trans (ih hp x hx) (le_of_not_lt hab)

/-! ## Claim C1 — `convert_backward` tie-break direction -/

/-- C1 (original claim refuted at a concrete input): with two crosswalk
entries for current code `"NEW"` effective 2020-10-01 and 2022-10-01, both
strictly after the as-of date 2019-01-01, `convert_backward` yields the
2022 entry's previous code `"OLD2"`, not the earliest future entry's
`"OLD1"` as the claim demands. -/
theorem C1_counterexample :
    backQualifies "NEW" ⟨2019, 1, 1⟩ 0 ⟨"OLD1", "NEW", ⟨2020, 10, 1⟩, 0⟩ = true ∧
    backQualifies "NEW" ⟨2019, 1, 1⟩ 0 ⟨"OLD2", "NEW", ⟨2022, 10, 1⟩, 0⟩ = true ∧
    convert_backward
      [⟨"OLD1", "NEW", ⟨2020, 10, 1⟩, 0⟩, ⟨"OLD2", "NEW", ⟨2022, 10, 1⟩, 0⟩]
      "NEW" ⟨2019, 1, 1⟩ 0 = some ⟨"NEW", ["OLD2"]⟩ ∧
    convert_backward
      [⟨"OLD1", "NEW", ⟨2020, 10, 1⟩, 0⟩, ⟨"OLD2", "NEW", ⟨2022, 10, 1⟩, 0⟩]
      "NEW" ⟨2019, 1, 1⟩ 0 ≠ some ⟨"NEW", ["OLD1"]⟩ := by
  refine ⟨by decide, by decide, by decide, by decide⟩

/-- C1 (amended): for every database, code, as-of date and code system,
when at least one crosswalk entry has `current_code` equal to the queried
code (punctuation stripped), the queried `code_type`, and `effective_date`
strictly after the as-of date, `convert_backward` returns such an entry's
`previous_code` as the sole candidate, and the returned entry carries the
**largest** qualifying `effective_date` — in particular, when two or more
qualifying future entries exist, the latest one is chosen, not the
earliest. -/
theorem C1_theorem (db : List ICD10Conversion) (code : String) (as_of : PyDate)
    (ct : Nat)
    (h : ∃ x ∈ db, x.current_code = stripDots code ∧
      as_of.toKey < x.effective_date.toKey ∧ x.code_type = ct) :
    ∃ e ∈ db, e.current_code = stripDots code ∧
      as_of.toKey < e.effective_date.toKey ∧ e.code_type = ct ∧
      convert_backward db code as_of ct = some ⟨code, [e.previous_code]⟩ ∧
      ∀ x ∈ db, x.current_code = stripDots code →
        as_of.toKey < x.effective_date.toKey → x.code_type = ct →
        x.effective_date.toKey ≤ e.effective_date.toKey := by
  obtain ⟨x, hxdb, hxq⟩ := h
  have hxfil : x ∈ db.filter (backQualifies code as_of ct) :=
    List.mem_filter.mpr ⟨hxdb, (backQualifies_iff code as_of ct x).mpr hxq⟩
  cases hp : pickLatest (db.filter (backQualifies code as_of ct)) with
  | none =>
    rw [pickLatest_eq_none hp] at hxfil
    exact absurd hxfil (List.not_mem_nil x)
  | some e =>
    have hefil := pickLatest_mem hp
    have hedb := (List.mem_filter.mp hefil).1
    have heq := (backQualifies_iff code as_of ct e).mp (List.mem_filter.mp hefil).2
    refine ⟨e, hedb, heq.1, heq.2.1, heq.2.2, ?_, ?_⟩
    · simp [convert_backward, hp]
    · intro y hydb h1 h2 h3
      exact pickLatest_ge hp y
        (List.mem_filter.mpr ⟨hydb, (backQualifies_iff code as_of ct y).mpr ⟨h1, h2, h3⟩⟩)

/-- Witness for C1: the amended theorem applied to the two-future-entry
database of the counterexample, with its hypothesis discharged
concretely. -/
theorem C1_witness :
    ∃ e ∈ [(⟨"OLD1", "NEW", ⟨2020, 10, 1⟩, 0⟩ : ICD10Conversion),
        ⟨"OLD2", "NEW", ⟨2022, 10, 1⟩, 0⟩],
      e.current_code = stripDots "NEW" ∧
      PyDate.toKey ⟨2019, 1, 1⟩ < e.effective_date.toKey ∧ e.code_type = 0 ∧
      convert_backward
        [⟨"OLD1", "NEW", ⟨2020, 10, 1⟩, 0⟩, ⟨"OLD2", "NEW", ⟨2022, 10, 1⟩, 0⟩]
        "NEW" ⟨2019, 1, 1⟩ 0 = some ⟨"NEW", [e.previous_code]⟩ ∧
      ∀ x ∈ [(⟨"OLD1", "NEW", ⟨2020, 10, 1⟩, 0⟩ : ICD10Conversion),
          ⟨"OLD2", "NEW", ⟨2022, 10, 1⟩, 0⟩],
        x.current_code = stripDots "NEW" →
        PyDate.toKey ⟨2019, 1, 1⟩ < x.effective_date.toKey → x.code_type = 0 →
        x.effective_date.toKey ≤ e.effective_date.toKey :=
  C1_theorem
    [⟨"OLD1", "NEW", ⟨2020, 10, 1⟩, 0⟩, ⟨"OLD2", "NEW", ⟨2022, 10, 1⟩, 0⟩]
    "NEW" ⟨2019, 1, 1⟩ 0 (by decide)

/-! ## Claim C3 — version round trip -/

/-- C3 (original claim refuted at a concrete input): `"091"` is a valid
3-character version id (two-digit numeric part `"09"`, suffix `"1"`), but
the round trip prints the year without zero padding and returns `"91"`. -/
theorem C3_counterexample :
    validVersion "091" = true ∧
    determine_drg_version (version_to_effective_date "091") = "91" ∧
    ("91" : String) ≠ "091" := by
  refine ⟨by decide, by decide, by decide⟩

/-- C3 (amended): the round trip
`version_for_date(version_to_effective_date(v)) == v` holds for every
valid 3-character version id whose two-digit numeric part has no leading
zero — i.e. `v = toString p ++ s` with `10 ≤ p ≤ 99` and
`s ∈ {"0", "1"}`; ids with a leading-zero part (`"001"`–`"091"`) come back
shortened by one character, because the version printer does not
zero-pad. -/
theorem C3_theorem :
    ∀ p : Nat, p < 100 → 10 ≤ p → ∀ s ∈ ["0", "1"],
      validVersion (Nat.repr p ++ s) = true ∧
      determine_drg_version (version_to_effective_date (Nat.repr p ++ s)) =
        Nat.repr p ++ s := by
  decide

/-- Witness for C3: the amended round trip at the concrete version
`"421"`. -/
theorem C3_witness :
    (42 < 100 ∧ 10 ≤ 42 ∧ "1" ∈ ["0", "1"]) ∧
    validVersion (Nat.repr 42 ++ "1") = true ∧
    determine_drg_version (version_to_effective_date (Nat.repr 42 ++ "1")) =
      Nat.repr 42 ++ "1" :=
  ⟨⟨by decide, by decide, by decide⟩, C3_theorem 42 (by decide) (by decide) "1" (by decide)⟩

/-! ## Claim C6 — `convert_forward` and the symmetry scenario -/

/-- C6 (original claim refuted at a concrete input): with the spec's
symmetry-scenario entry as `populate_database` stores it (periods stripped
from both codes at load), the backward lookup returns the stored form
`"25000"`, not the claim's punctuated `"250.00"`. -/
theorem C6_counterexample :
    convert_backward [⟨stripDots "250.00", stripDots "E1169", ⟨2015, 10, 1⟩, 0⟩]
      "E1169" ⟨2015, 1, 1⟩ 0 = some ⟨"E1169", ["25000"]⟩ ∧
    convert_backward [⟨stripDots "250.00", stripDots "E1169", ⟨2015, 10, 1⟩, 0⟩]
      "E1169" ⟨2015, 1, 1⟩ 0 ≠ some ⟨"E1169", ["250.00"]⟩ := by
  refine ⟨by decide, by decide⟩

/-- C6 (amended): `convert_forward` returns the `current_code` of every
crosswalk entry whose `previous_code` equals the queried code (punctuation
stripped) with `effective_date` at or before the as-of date in the queried
code system, listed in ascending `effective_date` order; in the
single-entry scenario (stored period-stripped, as the loader writes it),
`convert_forward("250.00", 2016-01-01)` yields `["E1169"]` and
`convert_backward("E1169", 2015-01-01)` yields `["25000"]` — the stored,
punctuation-stripped form of `250.00`. -/
theorem C6_theorem :
    (∀ (db : List ICD10Conversion) (code : String) (as_of : PyDate) (ct : Nat),
      (∃ x ∈ db, x.previous_code = stripDots code ∧
        x.effective_date.toKey ≤ as_of.toKey ∧ x.code_type = ct) →
      ∃ l : List ICD10Conversion,
        l.Perm (db.filter (fwdQualifies code as_of ct)) ∧
        l.Sorted effLE ∧
        convert_forward db code as_of ct =
          some ⟨code, l.map (fun r => r.current_code)⟩) ∧
    convert_forward [⟨stripDots "250.00", stripDots "E1169", ⟨2015, 10, 1⟩, 0⟩]
      "250.00" ⟨2016, 1, 1⟩ 0 = some ⟨"250.00", ["E1169"]⟩ ∧
    convert_backward [⟨stripDots "250.00", stripDots "E1169", ⟨2015, 10, 1⟩, 0⟩]
      "E1169" ⟨2015, 1, 1⟩ 0 = some ⟨"E1169", ["25000"]⟩ := by
  refine ⟨?_, by decide, by decide⟩
  intro db code as_of ct h
  obtain ⟨x, hxdb, hxq⟩ := h
  have hxfil : x ∈ db.filter (fwdQualifies code as_of ct) :=
    List.mem_filter.mpr ⟨hxdb, (fwdQualifies_iff code as_of ct x).mpr hxq⟩
  refine ⟨List.insertionSort effLE (db.filter (fwdQualifies code as_of ct)),
    List.perm_insertionSort _ _, List.sorted_insertionSort _ _, ?_⟩
  have hne : List.insertionSort effLE (db.filter (fwdQualifies code as_of ct)) ≠ [] := by
    intro hemp
    have hlen := (List.perm_insertionSort effLE
      (db.filter (fwdQualifies code as_of ct))).length_eq
    rw [hemp] at hlen
    rw [List.eq_nil_of_length_eq_zero hlen.symm] at hxfil
    exact absurd hxfil (List.not_mem_nil x)
  simp only [convert_forward]
  rw [if_neg (by simpa [List.isEmpty_iff] using hne)]

/-- Witness for C6: the universally quantified part of the amended theorem
applied to the concrete symmetry-scenario database, its hypothesis
discharged there. -/
theorem C6_witness :
    ∃ l : List ICD10Conversion,
      l.Perm ([⟨stripDots "250.00", stripDots "E1169", ⟨2015, 10, 1⟩, 0⟩].filter
        (fwdQualifies "250.00" ⟨2016, 1, 1⟩ 0)) ∧
      l.Sorted effLE ∧
      convert_forward [⟨stripDots "250.00", stripDots "E1169", ⟨2015, 10, 1⟩, 0⟩]
        "250.00" ⟨2016, 1, 1⟩ 0 = some ⟨"250.00", l.map (fun r => r.current_code)⟩ :=
  C6_theorem.1 [⟨stripDots "250.00", stripDots "E1169", ⟨2015, 10, 1⟩, 0⟩]
    "250.00" ⟨2016, 1, 1⟩ 0 (by decide)

/-! ## Claim C8 — `expand_code_range` -/

theorem commonPref_prefix_left : ∀ a b : List Char, commonPref a b <+: a := by
  intro a
  induction a with
  | nil => intro b; cases b <;> simp [commonPref]
  | cons c as ih =>
    intro b
    cases b with
    | nil => simp [commonPref]
    | cons d bs =>
      by_cases h : c = d
      · simpa [commonPref, h] using ih bs
      · simp [commonPref, h]

theorem commonPref_prefix_right : ∀ a b : List Char, commonPref a b <+: b := by
  intro a
  induction a with
  | nil => intro b; cases b <;> simp [commonPref]
  | cons c as ih =>
    intro b
    cases b with
    | nil => simp [commonPref]
    | cons d bs =>
      by_cases h : c = d
      · subst h
        simpa [commonPref] using ih bs
      · simp [commonPref, h]

theorem commonPref_longest : ∀ (a b q : List Char),
    q <+: a → q <+: b → q <+: commonPref a b := by
  intro a
  induction a with
  | nil =>
    intro b q hqa _
    rw [List.prefix_nil.mp hqa]
    simp
  | cons c as ih =>
    intro b q hqa hqb
    cases q with
    | nil => simp
    | cons e q' =>
      cases b with
      | nil => exact absurd (List.prefix_nil.mp hqb) (by simp)
      | cons d bs =>
        obtain ⟨rfl, hqa'⟩ := List.cons_prefix_cons.mp hqa
        obtain ⟨rfl, hqb'⟩ := List.cons_prefix_cons.mp hqb
        simpa [commonPref] using ih bs q' hqa' hqb'

/-- A hypothesized longest common literal prefix is the one the source's
scan loop computes. -/
theorem lcp_unique (a b p : List Char) (h1 : p <+: a) (h2 : p <+: b)
    (h3 : ∀ q : List Char, q <+: a → q <+: b → q.length ≤ p.length) :
    p = commonPref a b := by
  have hpc : p <+: commonPref a b := commonPref_longest a b p h1 h2
  have hlen : (commonPref a b).length ≤ p.length :=
    h3 _ (commonPref_prefix_left a b) (commonPref_prefix_right a b)
  exact hpc.eq_of_length (le_antisymm hpc.length_le hlen)

/-- C8 (confirmed): for every pair of code strings, with `p` their longest
common literal prefix: when both remaining suffixes are non-empty
all-digit strings, `expand_code_range` enumerates `p ++ zero_padded(i)`
(padded to the start suffix's width) for every integer `i` from the start
suffix's value to the end suffix's value inclusive; otherwise it returns
exactly `[start, end]`. -/
theorem C8_theorem (s e : String) (p : List Char)
    (h1 : p <+: s.data) (h2 : p <+: e.data)
    (h3 : ∀ q : List Char, q <+: s.data → q <+: e.data → q.length ≤ p.length) :
    ((pyIsDigit (s.data.drop p.length) && pyIsDigit (e.data.drop p.length)) = true →
      expand_code_range s e =
        (List.range' (digitsVal (s.data.drop p.length))
            (digitsVal (e.data.drop p.length) + 1 -
              digitsVal (s.data.drop p.length))).map
          (fun i =>
            String.mk (p ++ zfillTo (s.data.drop p.length).length (Nat.repr i).data))) ∧
    ((pyIsDigit (s.data.drop p.length) && pyIsDigit (e.data.drop p.length)) = false →
      expand_code_range s e = [s, e]) := by
  have hp : p = commonPref s.data e.data := lcp_unique s.data e.data p h1 h2 h3
  subst hp
  constructor
  · intro hc
    simp only [expand_code_range]
    rw [if_pos hc]
  · intro hc
    simp only [expand_code_range]
    rw [if_neg (by simp [hc])]

/-- Witness for C8: both branches of the theorem at the spec's concrete
examples — `expand_code_range("H02.101","H02.106")` enumerates the six
codes, and the non-numeric pair `("A00","B11")` falls back to the pair
itself. -/
theorem C8_witness :
    expand_code_range "H02.101" "H02.106" =
      ["H02.101", "H02.102", "H02.103", "H02.104", "H02.105", "H02.106"] ∧
    expand_code_range "A00" "B11" = ["A00", "B11"] := by
  constructor
  · have h8 := C8_theorem "H02.101" "H02.106"
      (commonPref "H02.101".data "H02.106".data)
      (commonPref_prefix_left _ _) (commonPref_prefix_right _ _)
      (fun q hq1 hq2 => (commonPref_longest _ _ q hq1 hq2).length_le)
    rw [h8.1 (by decide)]
    decide
  · have h8 := C8_theorem "A00" "B11"
      (commonPref "A00".data "B11".data)
      (commonPref_prefix_left _ _) (commonPref_prefix_right _ _)
      (fun q hq1 hq2 => (commonPref_longest _ _ q hq1 hq2).length_le)
    rw [h8.2 (by decide)]

/-! ## Claim C10 — the PCS loader's empty previous-codes field -/

/-- C10 (confirmed): the tab-separated line
`"X123\t...\t2020\t\t...\t10.01"` has exactly 8 fields and an empty fourth
(previous-codes) field; `populate_database_pcs` reaches the unguarded
`previous_codes[0]` there, raises `IndexError`, and the whole load aborts —
the same trailing well-formed line that loads fine on its own is never
reached.  The `len(parts) < 8` guard therefore does not make the loader
total over 8-column inputs. -/
theorem C10_theorem :
    (splitOnChar '\t'
      (stripWS "X123\tSome title\t2020\t\tOld title\tDeleted\tnote\t10.01".data)).length
        = 8 ∧
    (splitOnChar '\t'
      (stripWS "X123\tSome title\t2020\t\tOld title\tDeleted\tnote\t10.01".data)).getD 3
        ['?'] = [] ∧
    populate_database_pcs
      ["Current code(s) assignment\tCode title\tEffective year\tPrevious code(s) assignment\tPredecessor code title\tChange type\tComment\tEffective month/day [MM.DD]",
       "X123\tSome title\t2020\t\tOld title\tDeleted\tnote\t10.01",
       "0JH60AZ\tSome title\t2020\t0JH6\tOld title\tRevised\tnote\t10.01"] =
      .error "IndexError: list index out of range" ∧
    populate_database_pcs
      ["Current code(s) assignment\tCode title\tEffective year\tPrevious code(s) assignment\tPredecessor code title\tChange type\tComment\tEffective month/day [MM.DD]",
       "0JH60AZ\tSome title\t2020\t0JH6\tOld title\tRevised\tnote\t10.01"] =
      .ok [⟨"0JH6", "0JH60AZ", ⟨2020, 10, 1⟩, 1⟩] := by
  refine ⟨by decide, by decide, by rfl, by rfl⟩

/-! ## Claim C5 — missing IPSF record raises, not empty -/

/-- C5 (original claim refuted at a concrete input): looking up a provider
with CCN `"123456"` against an empty table raises
`ValueError("No IPSF data found ...")` instead of returning an empty
result. -/
theorem C5_counterexample :
    ipsf_query ([] : List IPSF_Row)
      (fun r => r.provider_ccn == "123456") 20240101 = none ∧
    from_db [] ⟨"", "123456", none⟩ 20240101 ipsf_default =
      .error "No IPSF data found for provider 123456 on date 20240101." := by
  refine ⟨by rfl, by rfl⟩

/-- C5 (amended): for every table, provider key and as-of date, when the
point-in-time lookup (greatest `effective_date <=` as-of date) matches no
record, `from_db` raises a `ValueError` naming the provider and date —
absence of historical data is reported as an error by this loader, not as
a normal empty result. -/
theorem C5_theorem (table : List IPSF_Row) (prov : Provider) (d : Int)
    (st : IPSFProviderState) (hccn : prov.other_id ≠ "")
    (hq : ipsf_query table (fun r => r.provider_ccn == prov.other_id) d = none) :
    from_db table prov d st =
      .error ("No IPSF data found for provider " ++ prov.other_id
        ++ " on date " ++ toString d ++ ".") := by
  simp only [from_db]
  rw [if_pos hccn]
  simp only [hq]
  rw [if_pos hccn]

/-- Witness for C5: the amended theorem at the empty table and CCN
`"123456"`. -/
theorem C5_witness :
    ("123456" : String) ≠ "" ∧
    from_db [] ⟨"", "123456", none⟩ 20240101 ipsf_default =
      .error ("No IPSF data found for provider " ++ "123456"
        ++ " on date " ++ toString (20240101 : Int) ++ ".") :=
  ⟨by decide, C5_theorem [] ⟨"", "123456", none⟩ 20240101 ipsf_default
    (by decide) (by rfl)⟩

/-! ## Claim C9 — termination-date normalization -/

theorem applyExtra_termination (st : IPSFProviderState)
    (kvs : List (String × Int))
    (h : ∀ v : Int, ("termination_date", v) ∉ kvs) :
    (applyExtra st kvs).termination_date = st.termination_date := by
  induction kvs generalizing st with
  | nil => rfl
  | cons kv rest ih =>
    have hkv : kv.1 ≠ "termination_date" := by
      intro hk
      exact h kv.2 (by simp [← hk])
    have hrest : ∀ v : Int, ("termination_date", v) ∉ rest := by
      intro v hv
      exact h v (List.mem_cons_of_mem kv hv)
    simp only [applyExtra, List.foldl_cons]
    by_cases h1 : kv.1 = "provider_ccn"
    · rw [if_pos (by simp [h1])]
      exact ih _ hrest
    · rw [if_neg (by simp [h1])]
      by_cases h2 : kv.1 = "effective_date"
      · rw [if_pos (by simp [h2])]
        exact ih _ hrest
      · rw [if_neg (by simp [h2]), if_neg (by simp [hkv])]
        exact ih _ hrest

/-- C9 (original claim refuted at a concrete input): the stored record's
`termination_date` is the no-data sentinel 19000101 and is normalized to
20991231 — but a caller-supplied `additional_data["ipsf"]` override of
`termination_date` is applied *after* the normalization, so the record
handed back carries the sentinel value 0. -/
theorem C9_counterexample :
    (IPSF_Row.termination_date ⟨"123456", "", 20200101, some 19000101⟩
      = some 19000101) ∧
    from_db [⟨"123456", "", 20200101, some 19000101⟩]
      ⟨"", "123456", some [("termination_date", 0)]⟩ 20240101 ipsf_default =
      .ok ⟨"123456", some 20200101, some 0⟩ ∧
    (some (0 : Int) ≠ some (20991231 : Int)) := by
  refine ⟨by rfl, by rfl, by decide⟩

/-- C9 (amended): whenever the point-in-time lookup returns a row and the
caller-supplied `additional_data["ipsf"]` does not itself override
`termination_date`, the record `from_db` hands back is normalized: a
stored `termination_date` of 19000101, 0 or NULL comes back as 20991231,
and the returned `termination_date` is never one of the no-data
sentinels. -/
theorem C9_theorem (table : List IPSF_Row) (prov : Provider) (d : Int)
    (st : IPSFProviderState) (row : IPSF_Row) (hccn : prov.other_id ≠ "")
    (hq : ipsf_query table (fun r => r.provider_ccn == prov.other_id) d = some row)
    (hnoov : ∀ kvs, prov.additional_data_ipsf = some kvs →
      ∀ v : Int, ("termination_date", v) ∉ kvs) :
    ∃ st' : IPSFProviderState, from_db table prov d st = .ok st' ∧
      ((row.termination_date = some 19000101 ∨ row.termination_date = some 0 ∨
          row.termination_date = none) → st'.termination_date = some 20991231) ∧
      st'.termination_date ≠ some 19000101 ∧ st'.termination_date ≠ some 0 ∧
      st'.termination_date ≠ none := by
  simp only [from_db]
  rw [if_pos hccn]
  simp only [hq]
  set st1 : IPSFProviderState :=
    { st with
      provider_ccn := row.provider_ccn
      effective_date := some row.effective_date
      termination_date := row.termination_date } with hst1
  by_cases hsent : st1.termination_date = some 19000101 ∨
      st1.termination_date = some 0 ∨ st1.termination_date = none
  · rw [if_pos hsent]
    cases hex : prov.additional_data_ipsf with
    | none =>
      refine ⟨_, rfl, fun _ => rfl, by simp, by simp, by simp⟩
    | some kvs =>
      have hterm := applyExtra_termination
        { st1 with termination_date := some 20991231 } kvs (hnoov kvs hex)
      exact ⟨_, rfl, fun _ => hterm, by rw [hterm]; simp, by rw [hterm]; simp,
        by rw [hterm]; simp⟩
  · rw [if_neg hsent]
    push_neg at hsent
    obtain ⟨hs1, hs2, hs3⟩ := hsent
    have hrow : st1.termination_date = row.termination_date := rfl
    cases hex : prov.additional_data_ipsf with
    | none =>
      refine ⟨st1, rfl, ?_, hs1, hs2, hs3⟩
      intro hsent'
      rw [hrow] at hs1 hs2 hs3
      rcases hsent' with h | h | h
      · exact absurd h hs1
      · exact absurd h hs2
      · exact absurd h hs3
    | some kvs =>
      have hterm := applyExtra_termination st1 kvs (hnoov kvs hex)
      refine ⟨_, rfl, ?_, by rw [hterm]; exact hs1, by rw [hterm]; exact hs2,
        by rw [hterm]; exact hs3⟩
      intro hsent'
      rw [hrow] at hs1 hs2 hs3
      rcases hsent' with h | h | h
      · exact absurd h hs1
      · exact absurd h hs2
      · exact absurd h hs3

/-- Witness for C9: the amended theorem at a one-row table whose stored
`termination_date` is the sentinel 19000101 and a provider with no
override: the returned state exists and is normalized. -/
theorem C9_witness :
    ∃ st' : IPSFProviderState,
      from_db [⟨"654321", "", 20200101, some 19000101⟩]
        ⟨"", "654321", none⟩ 20240101 ipsf_default = .ok st' ∧
      ((IPSF_Row.termination_date ⟨"654321", "", 20200101, some 19000101⟩
          = some 19000101 ∨
        IPSF_Row.termination_date ⟨"654321", "", 20200101, some 19000101⟩
          = some 0 ∨
        IPSF_Row.termination_date ⟨"654321", "", 20200101, some 19000101⟩
          = none) → st'.termination_date = some 20991231) ∧
      st'.termination_date ≠ some 19000101 ∧ st'.termination_date ≠ some 0 ∧
      st'.termination_date ≠ none :=
  C9_theorem [⟨"654321", "", 20200101, some 19000101⟩] ⟨"", "654321", none⟩
    20240101 ipsf_default ⟨"654321", "", 20200101, some 19000101⟩
    (by decide) (by rfl) (fun kvs h => Option.noConfusion h)

/-! ## Dict lemmas for `generate_claim_mappings` -/

theorem mem_dictKeys (m : Mappings) (k : String) :
    k ∈ dictKeys m ↔ dictMem m k = true := by
  constructor
  · intro h
    obtain ⟨p, hp, hpk⟩ := List.mem_map.mp h
    exact List.any_eq_true.mpr ⟨p, hp, by simp [hpk]⟩
  · intro h
    obtain ⟨p, hp, hpk⟩ := List.any_eq_true.mp h
    exact List.mem_map.mpr ⟨p, hp, by simpa using hpk⟩

theorem dictMem_false_iff (m : Mappings) (k : String) :
    dictMem m k = false ↔ k ∉ dictKeys m := by
  rw [mem_dictKeys]
  cases h : dictMem m k <;> simp

theorem dictKeys_append (m l : Mappings) :
    dictKeys (m ++ l) = dictKeys m ++ dictKeys l := by
  simp [dictKeys]

theorem dictFind_append_left {m : Mappings} (l : Mappings) {k : String}
    (h : dictMem m k = true) : dictFind (m ++ l) k = dictFind m k := by
  have hs : (m.find? (fun p => p.1 == k)).isSome := by
    rw [List.find?_isSome]
    simpa [dictMem, List.any_eq_true] using h
  obtain ⟨x, hx⟩ := Option.isSome_iff_exists.mp hs
  simp [dictFind, List.find?_append, hx]

theorem dictFind_append_right {m : Mappings} (l : Mappings) {k : String}
    (h : dictMem m k = false) : dictFind (m ++ l) k = dictFind l k := by
  have hf : m.find? (fun p => p.1 == k) = none := by
    rw [List.find?_eq_none]
    intro x hx
    have := (List.any_eq_false.mp h) x hx
    simpa using this
  simp [dictFind, List.find?_append, hf]

theorem dictKeys_dictSet_mem {m : Mappings} {k : String} (v : Option ICD10CodeOutput)
    (h : dictMem m k = true) : dictKeys (dictSet m k v) = dictKeys m := by
  rw [dictSet, if_pos h]
  unfold dictKeys
  rw [List.map_map]
  apply List.map_congr_left
  intro p _
  by_cases hpk : p.1 = k
  · simp [Function.comp, hpk]
  · simp [Function.comp, hpk]

theorem dictKeys_dictSet_notmem {m : Mappings} {k : String}
    (v : Option ICD10CodeOutput) (h : dictMem m k = false) :
    dictKeys (dictSet m k v) = dictKeys m ++ [k] := by
  rw [dictSet, if_neg (by simp [h])]
  simp [dictKeys]

theorem dictFind_dictSet_self (m : Mappings) (k : String)
    (v : Option ICD10CodeOutput) : dictFind (dictSet m k v) k = some v := by
  by_cases h : dictMem m k = true
  · rw [dictSet, if_pos h]
    induction m with
    | nil => simp [dictMem] at h
    | cons p m' ih =>
      by_cases hpk : p.1 = k
      · simp [dictFind, List.find?_cons, hpk]
      · have h' : dictMem m' k = true := by
          simpa [dictMem, List.any_cons, hpk] using h
        simpa [dictFind, List.find?_cons, hpk] using ih h'
  · rw [dictSet, if_neg (by simp [h])]
    rw [dictFind_append_right _ (by simpa using h)]
    simp [dictFind]

theorem dictFind_cons_pos {p : String × Option ICD10CodeOutput} (m : Mappings)
    {c : String} (h : p.1 = c) : dictFind (p :: m) c = some p.2 := by
  unfold dictFind
  rw [List.find?_cons_of_pos _ (by simp [h])]
  rfl

theorem dictFind_cons_neg {p : String × Option ICD10CodeOutput} (m : Mappings)
    {c : String} (h : ¬(p.1 = c)) : dictFind (p :: m) c = dictFind m c := by
  unfold dictFind
  rw [List.find?_cons_of_neg _ (by simpa using h)]

theorem dictFind_map_set_ne (m : Mappings) {k c : String}
    (v : Option ICD10CodeOutput) (h : c ≠ k) :
    dictFind (m.map (fun p => if p.1 == k then (k, v) else p)) c =
      dictFind m c := by
  induction m with
  | nil => rfl
  | cons p m' ih =>
    by_cases hpk : p.1 = k
    · have hmap : (p :: m').map (fun q => if q.1 == k then (k, v) else q) =
          (k, v) :: m'.map (fun q => if q.1 == k then (k, v) else q) := by
        simp [hpk]
      rw [hmap, dictFind_cons_neg _ (show ¬((k, v).1 = c) from fun hh => h hh.symm),
        ih]
      exact (dictFind_cons_neg m'
        (show ¬(p.1 = c) from by rw [hpk]; exact fun hh => h hh.symm)).symm
    · have hmap : (p :: m').map (fun q => if q.1 == k then (k, v) else q) =
          p :: m'.map (fun q => if q.1 == k then (k, v) else q) := by
        simp [hpk]
      rw [hmap]
      by_cases hpc : p.1 = c
      · rw [dictFind_cons_pos _ hpc, dictFind_cons_pos _ hpc]
      · rw [dictFind_cons_neg _ hpc, dictFind_cons_neg _ hpc]
        exact ih

theorem dictFind_dictSet_ne (m : Mappings) {k c : String}
    (v : Option ICD10CodeOutput) (h : c ≠ k) :
    dictFind (dictSet m k v) c = dictFind m c := by
  by_cases hm : dictMem m k = true
  · rw [dictSet, if_pos hm]
    exact dictFind_map_set_ne m v h
  · rw [dictSet, if_neg (by simp [hm])]
    by_cases hc : dictMem m c = true
    · exact dictFind_append_left _ hc
    · rw [dictFind_append_right _ (by simpa using hc)]
      have hrhs : dictFind m c = none := by
        have hcf : dictMem m c = false := by simpa using hc
        have hf : m.find? (fun p => p.1 == c) = none := by
          rw [List.find?_eq_none]
          intro x hx
          have := (List.any_eq_false.mp hcf) x hx
          simpa using this
        simp [dictFind, hf]
      rw [hrhs]
      simp [dictFind, List.find?_cons, show (k == c) = false from by
        simpa using fun hh : k = c => h hh.symm]

theorem addIfAbsent_cons (f : String → Option ICD10CodeOutput) (m : Mappings)
    (c : String) (cs : List String) :
    addIfAbsent f m (c :: cs) =
      addIfAbsent f
        (if dictMem m c then m
         else
           match f c with
           | some mp => m ++ [(c, some mp)]
           | none => m)
        cs := rfl

theorem aia_keys_mem_iff (f : String → Option ICD10CodeOutput)
    (cs : List String) (m : Mappings) (k : String) :
    k ∈ dictKeys (addIfAbsent f m cs) ↔
      k ∈ dictKeys m ∨ (k ∈ cs ∧ (f k).isSome = true) := by
  induction cs generalizing m with
  | nil => simp [addIfAbsent]
  | cons c cs ih =>
    rw [addIfAbsent_cons]
    by_cases hmc : dictMem m c = true
    · rw [if_pos hmc, ih]
      constructor
      · rintro (hk | ⟨hk1, hk2⟩)
        · exact Or.inl hk
        · exact Or.inr ⟨List.mem_cons_of_mem c hk1, hk2⟩
      · rintro (hk | ⟨hk1, hk2⟩)
        · exact Or.inl hk
        · rcases List.mem_cons.mp hk1 with rfl | hk1
          · exact Or.inl ((mem_dictKeys m k).mpr hmc)
          · exact Or.inr ⟨hk1, hk2⟩
    · rw [if_neg hmc]
      cases hfc : f c with
      | none =>
        rw [ih]
        constructor
        · rintro (hk | ⟨hk1, hk2⟩)
          · exact Or.inl hk
          · exact Or.inr ⟨List.mem_cons_of_mem c hk1, hk2⟩
        · rintro (hk | ⟨hk1, hk2⟩)
          · exact Or.inl hk
          · rcases List.mem_cons.mp hk1 with rfl | hk1
            · rw [hfc] at hk2
              simp at hk2
            · exact Or.inr ⟨hk1, hk2⟩
      | some mp =>
        rw [ih, dictKeys_append]
        constructor
        · rintro (hk | ⟨hk1, hk2⟩)
          · rcases List.mem_append.mp hk with hk | hk
            · exact Or.inl hk
            · have hkc : k = c := List.mem_singleton.mp (by simpa [dictKeys] using hk)
              subst hkc
              exact Or.inr ⟨List.mem_cons_self k cs, by simp [hfc]⟩
          · exact Or.inr ⟨List.mem_cons_of_mem c hk1, hk2⟩
        · rintro (hk | ⟨hk1, hk2⟩)
          · exact Or.inl (List.mem_append.mpr (Or.inl hk))
          · rcases List.mem_cons.mp hk1 with rfl | hk1
            · exact Or.inl (List.mem_append.mpr (Or.inr (by simp [dictKeys])))
            · exact Or.inr ⟨hk1, hk2⟩

theorem aia_find_preserved (f : String → Option ICD10CodeOutput)
    (cs : List String) {m : Mappings} {k : String} (h : k ∈ dictKeys m) :
    dictFind (addIfAbsent f m cs) k = dictFind m k := by
  induction cs generalizing m with
  | nil => rfl
  | cons c cs ih =>
    rw [addIfAbsent_cons]
    by_cases hmc : dictMem m c = true
    · rw [if_pos hmc]
      exact ih h
    · rw [if_neg hmc]
      cases hfc : f c with
      | none => exact ih h
      | some mp =>
        have hk' : k ∈ dictKeys (m ++ [(c, some mp)]) := by
          rw [dictKeys_append]
          exact List.mem_append.mpr (Or.inl h)
        rw [ih hk', dictFind_append_left _ ((mem_dictKeys m k).mp h)]

theorem aia_nodup (f : String → Option ICD10CodeOutput)
    (cs : List String) {m : Mappings} (h : (dictKeys m).Nodup) :
    (dictKeys (addIfAbsent f m cs)).Nodup := by
  induction cs generalizing m with
  | nil => exact h
  | cons c cs ih =>
    rw [addIfAbsent_cons]
    by_cases hmc : dictMem m c = true
    · rw [if_pos hmc]
      exact ih h
    · rw [if_neg hmc]
      cases hfc : f c with
      | none => exact ih h
      | some mp =>
        apply ih
        rw [dictKeys_append]
        simp only [List.nodup_append]
        refine ⟨h, by simp [dictKeys], ?_⟩
        intro x hx hx'
        rcases List.mem_singleton.mp (by simpa [dictKeys] using hx') with rfl
        exact (dictMem_false_iff m x).mp (by simpa using hmc) hx

theorem aia_find_new (f : String → Option ICD10CodeOutput)
    (cs : List String) {m : Mappings} {c : String} (hmc : c ∉ dictKeys m)
    (hcs : c ∈ cs) (hsome : (f c).isSome = true) :
    dictFind (addIfAbsent f m cs) c = some (f c) := by
  induction cs generalizing m with
  | nil => cases hcs
  | cons c' cs ih =>
    rw [addIfAbsent_cons]
    by_cases hcc : c' = c
    · subst hcc
      have hmem : dictMem m c' = false := (dictMem_false_iff m c').mpr hmc
      rw [if_neg (by simp [hmem])]
      obtain ⟨mp, hmp⟩ := Option.isSome_iff_exists.mp hsome
      rw [hmp]
      have hk : c' ∈ dictKeys (m ++ [(c', some mp)]) := by
        rw [dictKeys_append]
        exact List.mem_append.mpr (Or.inr (by simp [dictKeys]))
      rw [aia_find_preserved f cs hk, dictFind_append_right _ hmem]
      simp [dictFind, hmp]
    · have hcs' : c ∈ cs := by
        rcases List.mem_cons.mp hcs with h | h
        · exact absurd h.symm hcc
        · exact h
      by_cases hmc' : dictMem m c' = true
      · rw [if_pos hmc']
        exact ih hmc hcs'
      · rw [if_neg hmc']
        cases hfc : f c' with
        | none => exact ih hmc hcs'
        | some mp =>
          refine ih ?_ hcs'
          rw [dictKeys_append]
          intro hk
          rcases List.mem_append.mp hk with hk | hk
          · exact hmc hk
          · exact hcc (List.mem_singleton.mp (by simpa [dictKeys] using hk)).symm

/-- The `addIfAbsent` tail of both conversion branches, given the facts
established for the principal/admit stage: the final dict's key set is
characterized exactly — a code is a key iff it is the principal, the
admit code, a secondary whose diagnosis conversion finds an entry, or a
procedure whose procedure conversion finds an entry. -/
theorem tail_spec (dxc pxc : String → Option ICD10CodeOutput) (m2 : Mappings)
    (sdxs pxs : List String) (pdx : String) (adx : Option String)
    (hA : (dictKeys m2).Nodup)
    (hD : ∀ k, k ∈ dictKeys m2 ↔ (k = pdx ∨ adx = some k))
    (hE : dictFind m2 pdx = some (dxc pdx)) :
    (dictKeys (addIfAbsent pxc (addIfAbsent dxc m2 sdxs) pxs)).Nodup ∧
    pdx ∈ dictKeys (addIfAbsent pxc (addIfAbsent dxc m2 sdxs) pxs) ∧
    (∀ a, adx = some a →
      a ∈ dictKeys (addIfAbsent pxc (addIfAbsent dxc m2 sdxs) pxs)) ∧
    (∀ k, k ∈ dictKeys (addIfAbsent pxc (addIfAbsent dxc m2 sdxs) pxs) ↔
      (k = pdx ∨ adx = some k ∨ (k ∈ sdxs ∧ (dxc k).isSome = true) ∨
        (k ∈ pxs ∧ (pxc k).isSome = true))) ∧
    dictFind (addIfAbsent pxc (addIfAbsent dxc m2 sdxs) pxs) pdx =
      some (dxc pdx) := by
  have hmem3 : ∀ k, k ∈ dictKeys (addIfAbsent dxc m2 sdxs) ↔
      k ∈ dictKeys m2 ∨ (k ∈ sdxs ∧ (dxc k).isSome = true) :=
    fun k => aia_keys_mem_iff dxc sdxs m2 k
  have hmemb : ∀ k,
      k ∈ dictKeys (addIfAbsent pxc (addIfAbsent dxc m2 sdxs) pxs) ↔
      k ∈ dictKeys (addIfAbsent dxc m2 sdxs) ∨
        (k ∈ pxs ∧ (pxc k).isSome = true) :=
    fun k => aia_keys_mem_iff pxc pxs (addIfAbsent dxc m2 sdxs) k
  have hiff : ∀ k,
      k ∈ dictKeys (addIfAbsent pxc (addIfAbsent dxc m2 sdxs) pxs) ↔
      (k = pdx ∨ adx = some k ∨ (k ∈ sdxs ∧ (dxc k).isSome = true) ∨
        (k ∈ pxs ∧ (pxc k).isSome = true)) := by
    intro k
    rw [hmemb k, hmem3 k, hD k]
    tauto
  refine ⟨aia_nodup pxc pxs (aia_nodup dxc sdxs hA),
    (hiff pdx).mpr (Or.inl rfl),
    fun a ha => (hiff a).mpr (Or.inr (Or.inl ha)), hiff, ?_⟩
  have hB : pdx ∈ dictKeys m2 := (hD pdx).mpr (Or.inl rfl)
  have h3 : pdx ∈ dictKeys (addIfAbsent dxc m2 sdxs) :=
    (hmem3 pdx).mpr (Or.inl hB)
  rw [aia_find_preserved pxc pxs h3, aia_find_preserved dxc sdxs hB]
  exact hE

/-- Structure of the mapping dict built by either conversion branch of
`generate_claim_mappings`: distinct keys, the principal's value being
exactly the diagnosis converter's (possibly `None`) result, and the key
set characterized exactly: a code is a key iff it is the principal, the
admit code, a secondary whose diagnosis conversion finds an entry, or a
procedure whose procedure conversion finds an entry — so a secondary or
procedure code colliding with no key and mapping to `None` is omitted. -/
theorem buildMappings_spec (dxc pxc : String → Option ICD10CodeOutput)
    (pdx : String) (adx : Option String) (sdxs pxs : List String) :
    (dictKeys (buildMappings dxc pxc pdx adx sdxs pxs)).Nodup ∧
    pdx ∈ dictKeys (buildMappings dxc pxc pdx adx sdxs pxs) ∧
    (∀ a, adx = some a →
      a ∈ dictKeys (buildMappings dxc pxc pdx adx sdxs pxs)) ∧
    (∀ k, k ∈ dictKeys (buildMappings dxc pxc pdx adx sdxs pxs) ↔
      (k = pdx ∨ adx = some k ∨ (k ∈ sdxs ∧ (dxc k).isSome = true) ∨
        (k ∈ pxs ∧ (pxc k).isSome = true))) ∧
    dictFind (buildMappings dxc pxc pdx adx sdxs pxs) pdx = some (dxc pdx) := by
  have hm1 : dictSet [] pdx (dxc pdx) = [(pdx, dxc pdx)] := rfl
  cases adx with
  | none =>
    have hbm : buildMappings dxc pxc pdx none sdxs pxs =
        addIfAbsent pxc (addIfAbsent dxc (dictSet [] pdx (dxc pdx)) sdxs) pxs := rfl
    rw [hbm, hm1]
    exact tail_spec dxc pxc [(pdx, dxc pdx)] sdxs pxs pdx none
      (by simp [dictKeys])
      (fun k => by simp [dictKeys])
      (by simp [dictFind, List.find?_cons])
  | some a =>
    have hbm : buildMappings dxc pxc pdx (some a) sdxs pxs =
        addIfAbsent pxc
          (addIfAbsent dxc (dictSet (dictSet [] pdx (dxc pdx)) a (dxc a)) sdxs)
          pxs := rfl
    rw [hbm, hm1]
    by_cases hap : a = pdx
    · subst hap
      have hmm : dictMem [(a, dxc a)] a = true := by simp [dictMem]
      have hkeys : dictKeys (dictSet [(a, dxc a)] a (dxc a)) = [a] := by
        rw [dictKeys_dictSet_mem _ hmm]
        simp [dictKeys]
      refine tail_spec dxc pxc _ sdxs pxs a (some a)
        (by rw [hkeys]; simp)
        (fun k => ?_)
        (dictFind_dictSet_self _ a (dxc a))
      rw [hkeys]
      constructor
      · intro hk
        exact Or.inl (List.mem_singleton.mp hk)
      · rintro (rfl | hk)
        · exact List.mem_singleton.mpr rfl
        · injection hk with hk
          subst hk
          exact List.mem_singleton.mpr rfl
    · have hmm : dictMem [(pdx, dxc pdx)] a = false := by
        simp [dictMem]
        exact fun hh => hap hh.symm
      have hkeys : dictKeys (dictSet [(pdx, dxc pdx)] a (dxc a)) = [pdx, a] := by
        rw [dictKeys_dictSet_notmem _ hmm]
        simp [dictKeys]
      refine tail_spec dxc pxc _ sdxs pxs pdx (some a)
        (by rw [hkeys]; simp [Ne.symm hap])
        (fun k => ?_)
        ?_
      · rw [hkeys]
        constructor
        · intro hk
          rcases List.mem_cons.mp hk with rfl | hk
          · exact Or.inl rfl
          · rcases List.mem_singleton.mp hk with rfl
            exact Or.inr rfl
        · rintro (rfl | hk)
          · exact List.mem_cons_self _ _
          · injection hk with hk
            subst hk
            exact List.mem_cons_of_mem _ (List.mem_singleton.mpr rfl)
      · rw [dictFind_dictSet_ne _ (dxc a) (Ne.symm hap)]
        simp [dictFind, List.find?_cons]

/-- Reduction of `generate_claim_mappings` for a MANUAL claim with numeric
versions: the version plumbing resolves and only the direction branch
remains. -/
theorem generate_manual_eq (db : List ICD10Conversion) (cl : Claim)
    (tv bv : String) (thru : PyDate) (pdx : String) (tvi bvi : Int)
    (hic : cl.icd_convert = some ⟨some ICDConvertOption.MANUAL, some tv, some bv⟩)
    (hthru : cl.thru_date = some thru) (hpdx : cl.principal_dx = some pdx)
    (htvnum : isNumericStr tv = true) (hbvnum : isNumericStr bv = true)
    (htvi : pyInt? (tv.data.take 2) = some tvi)
    (hbvi : pyInt? (bv.data.take 2) = some bvi) :
    generate_claim_mappings db cl none =
      if 100 ≤ tvi ∨ 100 ≤ bvi then .error "Invalid ICD version"
      else if tvi < bvi then
        .ok ⟨some tv, some bv,
          buildMappings
            (fun c => convert_backward db c (version_to_effective_date tv) 0)
            (fun c => convert_backward db c (version_to_effective_date tv) 1)
            pdx cl.admit_dx cl.secondary_dxs cl.inpatient_pxs⟩
      else if bvi < tvi then
        .ok ⟨some tv, some bv,
          buildMappings
            (fun c => convert_forward db c (version_to_effective_date tv) 0)
            (fun c => convert_forward db c (version_to_effective_date tv) 1)
            pdx cl.admit_dx cl.secondary_dxs cl.inpatient_pxs⟩
      else .ok ⟨some tv, some bv, []⟩ := by
  simp only [generate_claim_mappings, hthru, hpdx, genVersions, hic, htvnum, hbvnum,
    Bool.and_self, if_true, htvi, hbvi]

/-! ## Claim C2 — mapping keys and unmapped codes -/

/-- C2 (original claim refuted at a concrete input): a MANUAL
backward-converting claim with principal `"A00"` and secondary `"B99"`
against an empty crosswalk yields `{"A00": None}` — the principal is
mapped to a null value (not an empty-candidate result) and the secondary
code `"B99"` is missing from the keys entirely. -/
theorem C2_counterexample :
    generate_claim_mappings []
      ⟨some ⟨2025, 1, 1⟩, some "A00", none, ["B99"], [],
        some ⟨some ICDConvertOption.MANUAL, some "420", some "430"⟩⟩ none =
      .ok ⟨some "420", some "430", [("A00", none)]⟩ ∧
    dictFind [("A00", (none : Option ICD10CodeOutput))] "A00" = some none ∧
    ("B99" : String) ∉ dictKeys [("A00", (none : Option ICD10CodeOutput))] := by
  refine ⟨by rfl, by rfl, by decide⟩

/-- C2 (amended): for every MANUAL claim whose numeric billed and target
versions differ, the mapping dict has distinct keys characterized exactly:
a code is a key iff it is the principal, the admit code, a secondary
diagnosis whose diagnosis-system conversion finds an entry, or a procedure
whose procedure-system conversion finds an entry.  The principal (and
admit, when present) are therefore always keys, the principal mapped to
the converter's result — which is `None` when no crosswalk entry
qualifies — while a secondary or procedure code with no qualifying entry
that collides with no other key is **omitted** from the map rather than
mapped to an empty candidate list. -/
theorem C2_theorem (db : List ICD10Conversion) (cl : Claim) (tv bv : String)
    (thru : PyDate) (pdx : String) (tvi bvi : Int)
    (hic : cl.icd_convert = some ⟨some ICDConvertOption.MANUAL, some tv, some bv⟩)
    (hthru : cl.thru_date = some thru) (hpdx : cl.principal_dx = some pdx)
    (htvnum : isNumericStr tv = true) (hbvnum : isNumericStr bv = true)
    (htvi : pyInt? (tv.data.take 2) = some tvi)
    (hbvi : pyInt? (bv.data.take 2) = some bvi)
    (htlt : tvi < 100) (hblt : bvi < 100) (hne : tvi ≠ bvi) :
    ∃ out : ICD10ConvertOutput,
      generate_claim_mappings db cl none = .ok out ∧
      out.target_version = some tv ∧ out.billed_version = some bv ∧
      (dictKeys out.mappings).Nodup ∧
      pdx ∈ dictKeys out.mappings ∧
      (∀ a, cl.admit_dx = some a → a ∈ dictKeys out.mappings) ∧
      (tvi < bvi →
        (∀ k, k ∈ dictKeys out.mappings ↔
          (k = pdx ∨ cl.admit_dx = some k ∨
            (k ∈ cl.secondary_dxs ∧
              (convert_backward db k (version_to_effective_date tv) 0).isSome
                = true) ∨
            (k ∈ cl.inpatient_pxs ∧
              (convert_backward db k (version_to_effective_date tv) 1).isSome
                = true))) ∧
        dictFind out.mappings pdx =
          some (convert_backward db pdx (version_to_effective_date tv) 0) ∧
        (∀ s ∈ cl.secondary_dxs, s ≠ pdx → cl.admit_dx ≠ some s →
          s ∉ cl.inpatient_pxs →
          convert_backward db s (version_to_effective_date tv) 0 = none →
          s ∉ dictKeys out.mappings) ∧
        (∀ op ∈ cl.inpatient_pxs, op ≠ pdx → cl.admit_dx ≠ some op →
          op ∉ cl.secondary_dxs →
          convert_backward db op (version_to_effective_date tv) 1 = none →
          op ∉ dictKeys out.mappings)) ∧
      (bvi < tvi →
        (∀ k, k ∈ dictKeys out.mappings ↔
          (k = pdx ∨ cl.admit_dx = some k ∨
            (k ∈ cl.secondary_dxs ∧
              (convert_forward db k (version_to_effective_date tv) 0).isSome
                = true) ∨
            (k ∈ cl.inpatient_pxs ∧
              (convert_forward db k (version_to_effective_date tv) 1).isSome
                = true))) ∧
        dictFind out.mappings pdx =
          some (convert_forward db pdx (version_to_effective_date tv) 0) ∧
        (∀ s ∈ cl.secondary_dxs, s ≠ pdx → cl.admit_dx ≠ some s →
          s ∉ cl.inpatient_pxs →
          convert_forward db s (version_to_effective_date tv) 0 = none →
          s ∉ dictKeys out.mappings) ∧
        (∀ op ∈ cl.inpatient_pxs, op ≠ pdx → cl.admit_dx ≠ some op →
          op ∉ cl.secondary_dxs →
          convert_forward db op (version_to_effective_date tv) 1 = none →
          op ∉ dictKeys out.mappings)) := by
  rw [generate_manual_eq db cl tv bv thru pdx tvi bvi hic hthru hpdx htvnum hbvnum
    htvi hbvi]
  rw [if_neg (by push_neg; exact ⟨htlt, hblt⟩)]
  rcases lt_or_gt_of_ne hne with hlt | hgt
  · rw [if_pos hlt]
    obtain ⟨h1, h2, h3, h4, h5⟩ := buildMappings_spec
      (fun c => convert_backward db c (version_to_effective_date tv) 0)
      (fun c => convert_backward db c (version_to_effective_date tv) 1)
      pdx cl.admit_dx cl.secondary_dxs cl.inpatient_pxs
    refine ⟨_, rfl, rfl, rfl, h1, h2, h3, fun _ => ⟨h4, h5, ?_, ?_⟩,
      fun hgt => absurd hgt (not_lt.mpr (le_of_lt hlt))⟩
    · intro s hs hnp hna hnpx hnone hk
      rcases (h4 s).mp hk with h | h | hsec | hpx
      · exact hnp h
      · exact hna h
      · rw [hnone] at hsec
        simp at hsec
      · exact hnpx hpx.1
    · intro op hop hnp hna hnsec hnone hk
      rcases (h4 op).mp hk with h | h | hsec | hpx
      · exact hnp h
      · exact hna h
      · exact hnsec hsec.1
      · rw [hnone] at hpx
        simp at hpx
  · rw [if_neg (not_lt.mpr (le_of_lt hgt)), if_pos hgt]
    obtain ⟨h1, h2, h3, h4, h5⟩ := buildMappings_spec
      (fun c => convert_forward db c (version_to_effective_date tv) 0)
      (fun c => convert_forward db c (version_to_effective_date tv) 1)
      pdx cl.admit_dx cl.secondary_dxs cl.inpatient_pxs
    refine ⟨_, rfl, rfl, rfl, h1, h2, h3,
      fun hlt => absurd hlt (not_lt.mpr (le_of_lt hgt)),
      fun _ => ⟨h4, h5, ?_, ?_⟩⟩
    · intro s hs hnp hna hnpx hnone hk
      rcases (h4 s).mp hk with h | h | hsec | hpx
      · exact hnp h
      · exact hna h
      · rw [hnone] at hsec
        simp at hsec
      · exact hnpx hpx.1
    · intro op hop hnp hna hnsec hnone hk
      rcases (h4 op).mp hk with h | h | hsec | hpx
      · exact hnp h
      · exact hna h
      · exact hnsec hsec.1
      · rw [hnone] at hpx
        simp at hpx

/-- Witness for C2: the amended theorem at the counterexample's claim
(empty crosswalk, principal `"A00"`, secondary `"B99"`, versions
430 → 420) — in particular the key biconditional shows `"B99"`, which has
no qualifying entry and collides with nothing, is omitted. -/
theorem C2_witness :
    ∃ out : ICD10ConvertOutput,
      generate_claim_mappings []
        ⟨some ⟨2025, 1, 1⟩, some "A00", none, ["B99"], [],
          some ⟨some ICDConvertOption.MANUAL, some "420", some "430"⟩⟩ none =
        .ok out ∧
      out.target_version = some "420" ∧ out.billed_version = some "430" ∧
      (dictKeys out.mappings).Nodup ∧
      "A00" ∈ dictKeys out.mappings ∧
      (∀ a, (none : Option String) = some a → a ∈ dictKeys out.mappings) ∧
      ((42 : Int) < 43 →
        (∀ k, k ∈ dictKeys out.mappings ↔
          (k = "A00" ∨ (none : Option String) = some k ∨
            (k ∈ ["B99"] ∧
              (convert_backward [] k (version_to_effective_date "420") 0).isSome
                = true) ∨
            (k ∈ ([] : List String) ∧
              (convert_backward [] k (version_to_effective_date "420") 1).isSome
                = true))) ∧
        dictFind out.mappings "A00" =
          some (convert_backward [] "A00" (version_to_effective_date "420") 0) ∧
        (∀ s ∈ ["B99"], s ≠ "A00" → (none : Option String) ≠ some s →
          s ∉ ([] : List String) →
          convert_backward [] s (version_to_effective_date "420") 0 = none →
          s ∉ dictKeys out.mappings) ∧
        (∀ op ∈ ([] : List String), op ≠ "A00" →
          (none : Option String) ≠ some op → op ∉ ["B99"] →
          convert_backward [] op (version_to_effective_date "420") 1 = none →
          op ∉ dictKeys out.mappings)) ∧
      ((43 : Int) < 42 →
        (∀ k, k ∈ dictKeys out.mappings ↔
          (k = "A00" ∨ (none : Option String) = some k ∨
            (k ∈ ["B99"] ∧
              (convert_forward [] k (version_to_effective_date "420") 0).isSome
                = true) ∨
            (k ∈ ([] : List String) ∧
              (convert_forward [] k (version_to_effective_date "420") 1).isSome
                = true))) ∧
        dictFind out.mappings "A00" =
          some (convert_forward [] "A00" (version_to_effective_date "420") 0) ∧
        (∀ s ∈ ["B99"], s ≠ "A00" → (none : Option String) ≠ some s →
          s ∉ ([] : List String) →
          convert_forward [] s (version_to_effective_date "420") 0 = none →
          s ∉ dictKeys out.mappings) ∧
        (∀ op ∈ ([] : List String), op ≠ "A00" →
          (none : Option String) ≠ some op → op ∉ ["B99"] →
          convert_forward [] op (version_to_effective_date "420") 1 = none →
          op ∉ dictKeys out.mappings)) :=
  C2_theorem []
    ⟨some ⟨2025, 1, 1⟩, some "A00", none, ["B99"], [],
      some ⟨some ICDConvertOption.MANUAL, some "420", some "430"⟩⟩
    "420" "430" ⟨2025, 1, 1⟩ "A00" 42 43 rfl rfl rfl (by decide) (by decide)
    (by decide) (by decide) (by decide) (by decide) (by decide)

/-! ## Claim C4 — equal versions -/

/-- C4 (original claim refuted at a concrete input): with equal billed and
target versions (`"430"`), `generate_claim_mappings` returns an **empty**
mapping dict — the principal code `"A00"` gets no entry at all, rather
than a candidate list `["A00"]`. -/
theorem C4_counterexample :
    generate_claim_mappings []
      ⟨some ⟨2025, 1, 1⟩, some "A00", none, [], [],
        some ⟨some ICDConvertOption.MANUAL, some "430", some "430"⟩⟩ none =
      .ok ⟨some "430", some "430", []⟩ ∧
    ("A00" : String) ∉ dictKeys ([] : Mappings) ∧
    dictFind ([] : Mappings) "A00" ≠ some (some ⟨"A00", ["A00"]⟩) := by
  refine ⟨by rfl, by decide, by decide⟩

/-- C4 (amended): for every MANUAL claim whose numeric billed and target
versions parse to the same integer, no conversion is performed and the
returned mapping dict is empty — codes are left implicitly unchanged, with
no per-code `[code]` entries. -/
theorem C4_theorem (db : List ICD10Conversion) (cl : Claim) (tv bv : String)
    (thru : PyDate) (pdx : String) (tvi bvi : Int)
    (hic : cl.icd_convert = some ⟨some ICDConvertOption.MANUAL, some tv, some bv⟩)
    (hthru : cl.thru_date = some thru) (hpdx : cl.principal_dx = some pdx)
    (htvnum : isNumericStr tv = true) (hbvnum : isNumericStr bv = true)
    (htvi : pyInt? (tv.data.take 2) = some tvi)
    (hbvi : pyInt? (bv.data.take 2) = some bvi)
    (htlt : tvi < 100) (hblt : bvi < 100) (heq : tvi = bvi) :
    generate_claim_mappings db cl none = .ok ⟨some tv, some bv, []⟩ := by
  rw [generate_manual_eq db cl tv bv thru pdx tvi bvi hic hthru hpdx htvnum hbvnum
    htvi hbvi]
  rw [if_neg (by push_neg; exact ⟨htlt, hblt⟩),
    if_neg (by rw [heq]; exact lt_irrefl bvi),
    if_neg (by rw [heq]; exact lt_irrefl bvi)]

/-- Witness for C4: the amended theorem at a claim converting 430 → 430. -/
theorem C4_witness :
    generate_claim_mappings []
      ⟨some ⟨2025, 1, 1⟩, some "A00", none, [], [],
        some ⟨some ICDConvertOption.MANUAL, some "430", some "430"⟩⟩ none =
      .ok ⟨some "430", some "430", []⟩ :=
  C4_theorem []
    ⟨some ⟨2025, 1, 1⟩, some "A00", none, [], [],
      some ⟨some ICDConvertOption.MANUAL, some "430", some "430"⟩⟩
    "430" "430" ⟨2025, 1, 1⟩ "A00" 43 43 rfl rfl rfl (by decide) (by decide)
    (by decide) (by decide) (by decide) (by decide) rfl

/-! ## Claim C7 — claim-level dedup and diagnosis/procedure namespaces -/

/-- C7 (original claim refuted at a concrete input): a claim whose
principal diagnosis, secondary list and procedure list all carry the code
`"0JH60"` produces a single map entry `{"0JH60": None}` keyed by code text
alone — even though the procedure-system backward conversion of `"0JH60"`
succeeds (the crosswalk holds a `code_type=1` entry), no second,
independent procedure entry is produced: the procedure occurrence is
skipped because the key already exists. -/
theorem C7_counterexample :
    generate_claim_mappings [⟨"OLD", "0JH60", ⟨2030, 10, 1⟩, 1⟩]
      ⟨some ⟨2025, 1, 1⟩, some "0JH60", none, ["0JH60"], ["0JH60"],
        some ⟨some ICDConvertOption.MANUAL, some "420", some "430"⟩⟩ none =
      .ok ⟨some "420", some "430", [("0JH60", none)]⟩ ∧
    convert_backward [⟨"OLD", "0JH60", ⟨2030, 10, 1⟩, 1⟩] "0JH60"
      (version_to_effective_date "420") 1 = some ⟨"0JH60", ["OLD"]⟩ ∧
    (dictKeys [("0JH60", (none : Option ICD10CodeOutput))]).length = 1 := by
  refine ⟨by rfl, by rfl, by rfl⟩

/-- C7 (amended): for every MANUAL claim with differing numeric versions,
a diagnosis code appearing both as principal and as a secondary diagnosis
is resolved once and yields exactly one map entry; a textually identical
code appearing in the procedure list does **not** produce a second,
independent entry — the map is keyed by code text alone, so the code keeps
its single diagnosis-system entry and the procedure occurrence is
skipped. -/
theorem C7_theorem (db : List ICD10Conversion) (cl : Claim) (tv bv : String)
    (thru : PyDate) (pdx : String) (tvi bvi : Int)
    (hic : cl.icd_convert = some ⟨some ICDConvertOption.MANUAL, some tv, some bv⟩)
    (hthru : cl.thru_date = some thru) (hpdx : cl.principal_dx = some pdx)
    (htvnum : isNumericStr tv = true) (hbvnum : isNumericStr bv = true)
    (htvi : pyInt? (tv.data.take 2) = some tvi)
    (hbvi : pyInt? (bv.data.take 2) = some bvi)
    (htlt : tvi < 100) (hblt : bvi < 100) (hne : tvi ≠ bvi)
    (hsec : pdx ∈ cl.secondary_dxs) (hpx : pdx ∈ cl.inpatient_pxs) :
    ∃ out : ICD10ConvertOutput,
      generate_claim_mappings db cl none = .ok out ∧
      (dictKeys out.mappings).count pdx = 1 ∧
      (tvi < bvi →
        dictFind out.mappings pdx =
          some (convert_backward db pdx (version_to_effective_date tv) 0)) ∧
      (bvi < tvi →
        dictFind out.mappings pdx =
          some (convert_forward db pdx (version_to_effective_date tv) 0)) := by
  rw [generate_manual_eq db cl tv bv thru pdx tvi bvi hic hthru hpdx htvnum hbvnum
    htvi hbvi]
  rw [if_neg (by push_neg; exact ⟨htlt, hblt⟩)]
  rcases lt_or_gt_of_ne hne with hlt | hgt
  · rw [if_pos hlt]
    obtain ⟨h1, h2, _, _, h5⟩ := buildMappings_spec
      (fun c => convert_backward db c (version_to_effective_date tv) 0)
      (fun c => convert_backward db c (version_to_effective_date tv) 1)
      pdx cl.admit_dx cl.secondary_dxs cl.inpatient_pxs
    exact ⟨_, rfl, List.count_eq_one_of_mem h1 h2, fun _ => h5,
      fun hgt => absurd hgt (not_lt.mpr (le_of_lt hlt))⟩
  · rw [if_neg (not_lt.mpr (le_of_lt hgt)), if_pos hgt]
    obtain ⟨h1, h2, _, _, h5⟩ := buildMappings_spec
      (fun c => convert_forward db c (version_to_effective_date tv) 0)
      (fun c => convert_forward db c (version_to_effective_date tv) 1)
      pdx cl.admit_dx cl.secondary_dxs cl.inpatient_pxs
    exact ⟨_, rfl, List.count_eq_one_of_mem h1 h2,
      fun hlt2 => absurd hlt2 (not_lt.mpr (le_of_lt hgt)), fun _ => h5⟩

/-- Witness for C7: the amended theorem at the counterexample's claim —
`"0JH60"` as principal, secondary and procedure at once, one PCS crosswalk
entry. -/
theorem C7_witness :
    ∃ out : ICD10ConvertOutput,
      generate_claim_mappings [⟨"OLD", "0JH60", ⟨2030, 10, 1⟩, 1⟩]
        ⟨some ⟨2025, 1, 1⟩, some "0JH60", none, ["0JH60"], ["0JH60"],
          some ⟨some ICDConvertOption.MANUAL, some "420", some "430"⟩⟩ none =
        .ok out ∧
      (dictKeys out.mappings).count "0JH60" = 1 ∧
      ((42 : Int) < 43 →
        dictFind out.mappings "0JH60" =
          some (convert_backward [⟨"OLD", "0JH60", ⟨2030, 10, 1⟩, 1⟩] "0JH60"
            (version_to_effective_date "420") 0)) ∧
      ((43 : Int) < 42 →
        dictFind out.mappings "0JH60" =
          some (convert_forward [⟨"OLD", "0JH60", ⟨2030, 10, 1⟩, 1⟩] "0JH60"
            (version_to_effective_date "420") 0)) :=
  C7_theorem [⟨"OLD", "0JH60", ⟨2030, 10, 1⟩, 1⟩]
    ⟨some ⟨2025, 1, 1⟩, some "0JH60", none, ["0JH60"], ["0JH60"],
      some ⟨some ICDConvertOption.MANUAL, some "420", some "430"⟩⟩
    "420" "430" ⟨2025, 1, 1⟩ "0JH60" 42 43 rfl rfl rfl (by decide) (by decide)
    (by decide) (by decide) (by decide) (by decide) (by decide)
    (by decide) (by decide)

end Myelin
